import Mathlib

/-!
# telegrambot: the reminder bot of `automatedeploy/telegrambot.go`

A shallow embedding of the Telegram client (`GetUpdates`, `SendMessage`), of the
orchestrator `PostMessage` and of the scheduler loop of `PingForLunch`.

Conventions of the embedding.

* Go `int` is `Int`, Go `string` is `String`, a Go slice is a `List`.
* A Go `error` is its text; a returned `error` value is an `Option String`
  (`none` is `nil`).
* The outside world (environment variables, the HTTP exchange, the names file,
  the clock) is an explicit argument: each call that can fail in the source has
  one constructor or field saying how it went.
* What a function does to the outside is the list of `Event`s it produces.
  Log lines are not events; `logrus.Fatalf`, which ends the process, and a
  runtime panic are results of type `Outcome`.
-/

namespace TelegramBot

set_option linter.unusedVariables false

/-! ## Data model (lines 20-105) -/

/-- The constant `URL`. -/
def URL : String := "https://api.telegram.org/bot"

/-- The constant `IndiaTimeZoneID`. -/
def IndiaTimeZoneID : String := "Asia/Kolkata"

/-- A parsed `*url.URL`: the text `String()` renders and its `Path`. -/
structure ParsedURL where
  Text : String
  Path : String
  deriving DecidableEq, Repr

/-- The struct `BotInfo`. -/
structure BotInfo where
  URL : ParsedURL
  WebhookURL : ParsedURL
  deriving DecidableEq, Repr

/-- The struct `User`. -/
structure User where
  ID : Int
  FirstName : String
  LastName : String
  UserName : String
  deriving DecidableEq, Repr

/-- The struct `Chat`. -/
structure Chat where
  ID : Int
  Type_ : String
  Title : String
  Username : String
  FirstName : String
  LastName : String
  AllMembersAreAdministrators : Bool
  deriving DecidableEq, Repr

/-- The struct `MessageEntity`. -/
structure MessageEntity where
  Type_ : String
  Offset : Int
  Length : Int
  URL : String
  User : User
  deriving DecidableEq, Repr

/-- The struct `Message`. -/
structure Message where
  MessageID : Int
  From : User
  Date : Int
  Chat : Chat
  Text : String
  Entities : List MessageEntity
  deriving DecidableEq, Repr

/-- The struct `Update`. -/
structure Update where
  UpdateID : Int
  Message : Message
  deriving DecidableEq, Repr

/-- The struct `Response`: the decoded envelope of `getUpdates`. -/
structure Response where
  OK : Bool
  Result : List Update
  deriving DecidableEq, Repr

/-- The struct `ResponseSentMessage`: the decoded envelope of `sendMessage`. -/
structure ResponseSentMessage where
  OK : Bool
  Result : Message
  ErrorCode : Int
  Description : String
  deriving DecidableEq, Repr

/-! ## The outside world -/

/-- How the HTTP exchange of one client call went: the first stage that failed
(with the library's error text), or the envelope `json.Unmarshal` decoded. -/
inductive Exchange (α : Type) where
  | parseFailed (err : String)
  | getFailed (err : String)
  | readFailed (err : String)
  | unmarshalFailed (err : String)
  | decoded (envelope : α)
  deriving Repr

/-- What `InitBotObject` reads: the two environment variables, what `url.Parse`
answers for each text, and `path.Join`. -/
structure InitWorld where
  TOKEN : String
  WEBHOOK_URL : String
  urlParse : String → Except String ParsedURL
  pathJoin : String → String → String

/-- What one call of `PostMessage` meets. -/
structure PostWorld where
  init : InitWorld
  updates : Exchange Response
  sent : Exchange ResponseSentMessage

/-- How reading the names file went in `getNames`. -/
inductive NamesFile where
  | readFailed (err : String)
  | yamlFailed (err : String)
  | parsed (names : List String)
  deriving Repr

/-- Calls observed from outside. -/
inductive Event where
  | getNames
  | PostMessage (message : String)
  | GetUpdates
  | SendMessage (chatid : Int) (message : String)
  deriving DecidableEq, Repr

/-- How a piece of code ends: it returns, `logrus.Fatalf` exits the process, or
the runtime panics. -/
inductive Outcome (σ : Type) where
  | returned (s : σ)
  | fatal (msg : String)
  | panicked (msg : String)
  deriving DecidableEq, Repr

/-! ## Formatting helpers of the Go library used by the source -/

/-- Decimal text of a Go `int` (`%d`, `strconv.Itoa`). -/
def Itoa (n : Int) : String :=
  if n < 0 then "-" ++ Nat.repr n.natAbs else Nat.repr n.natAbs

/-- Helper of `Join`: the elements after the first, each preceded by `sep`. -/
def joinTail (sep : String) : List String → String
  | [] => ""
  | e :: es => sep ++ e ++ joinTail sep es

/-- `strings.Join`. -/
def Join (elems : List String) (sep : String) : String :=
  match elems with
  | [] => ""
  | [e] => e
  | e :: es => e ++ joinTail sep es

/-- Helper of `Split`: `cur` holds, reversed, the characters of the current
field. -/
def splitChars (sep : Char) : List Char → List Char → List String
  | [], cur => [String.mk cur.reverse]
  | c :: cs, cur =>
    if c = sep then String.mk cur.reverse :: splitChars sep cs []
    else splitChars sep cs (c :: cur)

/-- `strings.Split(s, sep)` for a one-character separator. -/
def Split (s : String) (sep : Char) : List String :=
  splitChars sep s.data []

/-- Slice indexing `xs[i]` with Go's bounds check: `none` is the runtime
panic. -/
def index {α : Type} (xs : List α) (i : Int) : Option α :=
  if i < 0 ∨ (xs.length : Int) ≤ i then none else xs[i.toNat]?

/-! ## The client (lines 30-170) -/

/-- The method `InitBotObject`. -/
def InitBotObject (w : InitWorld) : Except String BotInfo :=
  let token := w.TOKEN
  if token = "" then .error "Please set environment variable TOKEN"
  else
    match w.urlParse (URL ++ token) with
    | .error err => .error ("Error parsing url: " ++ (URL ++ token) ++ ", Error: " ++ err)
    | .ok url =>
      let webhookurl := w.WEBHOOK_URL
      if webhookurl = "" then .error "Please set environment variable WEBHOOK_URL"
      else
        match w.urlParse webhookurl with
        | .error err => .error ("Error parsing url: " ++ webhookurl ++ ", Error: " ++ err)
        | .ok wh =>
          .ok { URL := url, WebhookURL := { wh with Path := w.pathJoin wh.Path token } }

/-- The method `GetUpdates`: the updates and the error it returns. -/
def GetUpdates (b : BotInfo) (x : Exchange Response) : List Update × Option String :=
  match x with
  | .parseFailed err => ([], some ("Error parsing url: " ++ b.URL.Text ++ ", Error: " ++ err))
  | .getFailed err => ([], some ("Error getting latest updates. Error: " ++ err))
  | .readFailed err => ([], some ("Error reading response body. Error: " ++ err))
  | .unmarshalFailed err => ([], some ("Could not unmarshal the response. Error: " ++ err))
  | .decoded response =>
    if response.OK then (response.Result, none)
    else ([], some "No data received")

/-- The method `SendMessage`: the error it returns. -/
def SendMessage (b : BotInfo) (chatid : Int) (message : String)
    (x : Exchange ResponseSentMessage) : Option String :=
  match x with
  | .parseFailed err => some ("Error parsing url: " ++ b.URL.Text ++ ", Error: " ++ err)
  | .getFailed err => some ("Could not post request. Error: " ++ err)
  | .readFailed err => some ("Error reading response body. Error: " ++ err)
  | .unmarshalFailed err => some ("Could not unmarshal the response. Error: " ++ err)
  | .decoded response =>
    if response.OK then none
    else some ("No data received. Error Code: " ++ Itoa response.ErrorCode
      ++ ", Desc: " ++ response.Description)

/-! ## The orchestrator (lines 172-194) -/

/-- The function `PostMessage`: the calls it makes and how it ends. -/
def PostMessage (message : String) (w : PostWorld) : List Event × Outcome Unit :=
  match InitBotObject w.init with
  | .error err => ([], .fatal err)
  | .ok b =>
    match GetUpdates b w.updates with
    | (_, some _) => ([.GetUpdates], .returned ())
    | (updates, none) =>
      match index updates ((updates.length : Int) - 1) with
      | none =>
        ([.GetUpdates], .panicked ("runtime error: index out of range ["
          ++ Itoa ((updates.length : Int) - 1) ++ "]"))
      | some lastUpdate =>
        let chatid := lastUpdate.Message.Chat.ID
        let _err := SendMessage b chatid message w.sent
        ([.GetUpdates, .SendMessage chatid message], .returned ())

/-! ## The scheduler (lines 196-293) -/

/-- The function `getNames`: the names and the error it returns. -/
def getNames (f : NamesFile) : List String × Option String :=
  match f with
  | .readFailed err => ([], some ("Error while reading names file: " ++ err))
  | .yamlFailed err => ([], some ("Error while unmarshalling yaml: " ++ err))
  | .parsed names => (names, none)

/-- The type `time.Weekday`. -/
inductive Weekday where
  | Sunday | Monday | Tuesday | Wednesday | Thursday | Friday | Saturday
  deriving DecidableEq, Repr

/-- The method `Weekday.String`: the English name of the day. -/
def Weekday.String : Weekday → String
  | .Sunday => "Sunday"
  | .Monday => "Monday"
  | .Tuesday => "Tuesday"
  | .Wednesday => "Wednesday"
  | .Thursday => "Thursday"
  | .Friday => "Friday"
  | .Saturday => "Saturday"

/-- What the loop reads of `indiaTime`: `Weekday()`, `Hour()` and `Minute()`. -/
structure LocalTime where
  Weekday : Weekday
  Hour : Nat
  Minute : Nat
  deriving DecidableEq, Repr

/-- The list `noPingDays` of `shouldIPingToday`, from the value of the
environment variable `NOPINGDAYS`. -/
def noPingDays (NOPINGDAYS : String) : List String :=
  let noping := if NOPINGDAYS = "" then "Saturday,Sunday" else NOPINGDAYS
  Split noping ','

/-- The `for` loop of `shouldIPingToday`. -/
def shouldIPingToday.scan (t : LocalTime) : List String → Bool
  | [] => true
  | day :: days => if t.Weekday.String = day then false else shouldIPingToday.scan t days

/-- The function `shouldIPingToday`. -/
def shouldIPingToday (NOPINGDAYS : String) (t : LocalTime) : Bool :=
  shouldIPingToday.scan t (noPingDays NOPINGDAYS)

/-- The target hour of `PingForLunch`, from what `strconv.Atoi` answers for the
environment variable `HOUR`. -/
def PingForLunch.hour (atoi : Except String Int) : Int :=
  match atoi with
  | .ok hour => hour
  | .error _ => 12

/-- The target minute of `PingForLunch`, from what `strconv.Atoi` answers for
the environment variable `MINUTE`. -/
def PingForLunch.min (atoi : Except String Int) : Int :=
  match atoi with
  | .ok min => min
  | .error _ => 45

/-- The slice `nameTags` the loop of lines 279-283 builds. -/
def PingForLunch.nameTags (names : List String) : List String :=
  names.foldl (fun nameTags name => nameTags ++ ["@" ++ name]) []

/-- The text `message` of line 285. -/
def PingForLunch.message (names : List String) : String :=
  "ping for lunch " ++ Join (PingForLunch.nameTags names) " "

/-- What one iteration of the loop meets: the local time, the environment
variable `NOPINGDAYS`, the names file and the network. -/
structure Tick where
  indiaTime : LocalTime
  NOPINGDAYS : String
  namesFile : NamesFile
  post : PostWorld

/-- One iteration of the `for` loop of `PingForLunch` (lines 263-291): the calls
made, and the flag `pingdone` after it unless the process ended. -/
def PingForLunch.iteration (hour min : Int) (pingdone : Bool) (tk : Tick) :
    List Event × Outcome Bool :=
  if !shouldIPingToday tk.NOPINGDAYS tk.indiaTime then ([], .returned pingdone)
  else if (tk.indiaTime.Hour : Int) = hour ∧ (tk.indiaTime.Minute : Int) = min
      ∧ pingdone = false then
    match getNames tk.namesFile with
    | (_, some _) => ([.getNames], .returned pingdone)
    | (names, none) =>
      let message := PingForLunch.message names
      match PostMessage message tk.post with
      | (evs, .returned _) => (.getNames :: .PostMessage message :: evs, .returned true)
      | (evs, .fatal msg) => (.getNames :: .PostMessage message :: evs, .fatal msg)
      | (evs, .panicked msg) => (.getNames :: .PostMessage message :: evs, .panicked msg)
  else if tk.indiaTime.Hour = 1 ∧ pingdone = true then ([], .returned false)
  else ([], .returned pingdone)

/-- The `for` loop of `PingForLunch` run over the iterations `ticks`, from the
flag `pingdone`; it stops where the process ends. -/
def PingForLunch.loop (hour min : Int) : Bool → List Tick → List Event × Outcome Bool
  | pingdone, [] => ([], .returned pingdone)
  | pingdone, tk :: rest =>
    match PingForLunch.iteration hour min pingdone tk with
    | (evs, .returned flag) =>
      ((evs ++ (PingForLunch.loop hour min flag rest).1), (PingForLunch.loop hour min flag rest).2)
    | (evs, .fatal msg) => (evs, .fatal msg)
    | (evs, .panicked msg) => (evs, .panicked msg)

/-- The function `PingForLunch` over the iterations `ticks`: `loadLocation` is
the error of `time.LoadLocation`, if any. -/
def PingForLunch (atoiHour atoiMin : Except String Int) (loadLocation : Option String)
    (ticks : List Tick) : List Event × Outcome Bool :=
  let hour := PingForLunch.hour atoiHour
  let min := PingForLunch.min atoiMin
  match loadLocation with
  | some err => ([], .fatal ("Error parsing timezone. Error: " ++ err))
  | none => PingForLunch.loop hour min false ticks

/-! ## Observations on a trace -/

/-- Number of `PostMessage` calls in a trace. -/
def posts (evs : List Event) : Nat :=
  evs.countP (fun e => match e with
    | .PostMessage _ => true
    | _ => false)

/-- Number of `SendMessage` calls in a trace. -/
def sends (evs : List Event) : Nat :=
  evs.countP (fun e => match e with
    | .SendMessage _ _ => true
    | _ => false)

/-- Local times of one day in order: `a` is not later than `b`. -/
def LocalTime.le (a b : LocalTime) : Prop :=
  a.Hour < b.Hour ∨ (a.Hour = b.Hour ∧ a.Minute ≤ b.Minute)

instance (a b : LocalTime) : Decidable (LocalTime.le a b) :=
  inferInstanceAs (Decidable (a.Hour < b.Hour ∨ (a.Hour = b.Hour ∧ a.Minute ≤ b.Minute)))

instance : IsTrans Tick (fun a b => LocalTime.le a.indiaTime b.indiaTime) where
  trans a b c hab hbc := by
    unfold LocalTime.le at *
    rcases hab with hab | ⟨hab1, hab2⟩ <;> rcases hbc with hbc | ⟨hbc1, hbc2⟩
    · left; omega
    · left; omega
    · left; omega
    · right; constructor <;> omega

/-- The local times of the ticks never go back. -/
def NonDecreasing (ticks : List Tick) : Prop :=
  List.Chain' (fun a b => LocalTime.le a.indiaTime b.indiaTime) ticks

instance (ticks : List Tick) : Decidable (NonDecreasing ticks) :=
  inferInstanceAs
    (Decidable (List.Chain' (fun a b : Tick => LocalTime.le a.indiaTime b.indiaTime) ticks))

/-! ## Sample worlds -/

/-- A world where the bot initialises. -/
def initOK : InitWorld :=
  { TOKEN := "t", WEBHOOK_URL := "https://example.org/hook",
    urlParse := fun s => .ok { Text := s, Path := "" },
    pathJoin := fun a b => a ++ "/" ++ b }

/-- A world where `TOKEN` is not set. -/
def initNoToken : InitWorld := { initOK with TOKEN := "" }

/-- A user. -/
def sampleUser : User := { ID := 7, FirstName := "A", LastName := "", UserName := "a" }

/-- An update coming from the chat `chat`. -/
def sampleUpdate (id chat : Int) : Update :=
  { UpdateID := id,
    Message := { MessageID := id, From := sampleUser, Date := 0,
                 Chat := { ID := chat, Type_ := "group", Title := "", Username := "",
                           FirstName := "", LastName := "",
                           AllMembersAreAdministrators := false },
                 Text := "hi", Entities := [] } }

/-- The envelope of a `sendMessage` that went through. -/
def sentOK : ResponseSentMessage :=
  { OK := true, Result := (sampleUpdate 3 42).Message, ErrorCode := 0, Description := "" }

/-- The envelope of a refused `sendMessage`. -/
def sentRefused : ResponseSentMessage :=
  { OK := false, Result := (sampleUpdate 0 0).Message, ErrorCode := 400,
    Description := "chat not found" }

/-- A network where updates come from chats 41 then 42 and the send goes
through. -/
def postOK : PostWorld :=
  { init := initOK,
    updates := .decoded { OK := true, Result := [sampleUpdate 1 41, sampleUpdate 2 42] },
    sent := .decoded sentOK }

/-- A network where `getUpdates` answers `ok` with no update. -/
def postEmpty : PostWorld :=
  { postOK with updates := .decoded { OK := true, Result := [] } }

/-- A tick on a Monday at `h:m`, names `alice` and `bob`, over the network
`w`. -/
def mondayTick (h m : Nat) (w : PostWorld) : Tick :=
  { indiaTime := { Weekday := .Monday, Hour := h, Minute := m },
    NOPINGDAYS := "", namesFile := .parsed ["alice", "bob"], post := w }

/-- A tick on a Tuesday at `h:m`, names `alice` and `bob`, over the network
`w`. -/
def tuesdayTick (h m : Nat) (w : PostWorld) : Tick :=
  { indiaTime := { Weekday := .Tuesday, Hour := h, Minute := m },
    NOPINGDAYS := "", namesFile := .parsed ["alice", "bob"], post := w }

end TelegramBot

namespace TelegramBot

/-! ## Helper lemmas -/

theorem index_last {α : Type} (xs : List α) (h : xs ≠ []) :
    index xs ((xs.length : Int) - 1) = some (xs.getLast h) := by
  obtain ⟨n, hn⟩ : ∃ n, xs.length = n + 1 := by
    cases xs with
    | nil => exact absurd rfl h
    | cons x t => exact ⟨t.length, rfl⟩
  have hi : ((xs.length : Int) - 1) = (n : Int) := by rw [hn]; push_cast; ring
  unfold index
  rw [hi]
  have hlt : n < xs.length := by omega
  have hc : ¬ ((n : Int) < 0 ∨ (xs.length : Int) ≤ (n : Int)) := by omega
  rw [if_neg hc, Int.toNat_ofNat, List.getElem?_eq_getElem hlt, List.getLast_eq_getElem]
  congr 2
  omega

theorem GetUpdates_error_is_empty (b : BotInfo) (x : Exchange Response) (err : String)
    (h : (GetUpdates b x).2 = some err) : (GetUpdates b x).1 = [] := by
  cases x with
  | decoded r =>
    cases hr : r.OK
    · simp [GetUpdates, hr]
    · simp [GetUpdates, hr] at h
  | _ => rfl

theorem PostMessage_of_updates (message : String) (w : PostWorld) (b : BotInfo)
    (updates : List Update) (hinit : InitBotObject w.init = .ok b)
    (hget : GetUpdates b w.updates = (updates, none)) (hne : updates ≠ []) :
    PostMessage message w =
      ([.GetUpdates, .SendMessage (updates.getLast hne).Message.Chat.ID message],
        .returned ()) := by
  unfold PostMessage
  simp only [hinit, hget, index_last updates hne]

theorem PostMessage_of_error (message : String) (w : PostWorld) (b : BotInfo)
    (updates : List Update) (err : String) (hinit : InitBotObject w.init = .ok b)
    (hget : GetUpdates b w.updates = (updates, some err)) :
    PostMessage message w = ([.GetUpdates], .returned ()) := by
  unfold PostMessage
  simp only [hinit, hget]

/-! ## C1 -/

/-- C1: when the bot initialises and `GetUpdates` returns a non-empty sequence
`updates`, `PostMessage` calls `GetUpdates` and then `SendMessage` exactly once,
with the chat ID of the last element of `updates` and the given message, and
returns; no other element of `updates` matters. -/
theorem PostMessage_sends_to_last_chat (message : String) (w : PostWorld) (b : BotInfo)
    (updates : List Update) (hinit : InitBotObject w.init = .ok b)
    (hget : (GetUpdates b w.updates).1 = updates) (hne : updates ≠ []) :
    PostMessage message w =
      ([.GetUpdates, .SendMessage (updates.getLast hne).Message.Chat.ID message],
        .returned ()) := by
  have hnone : (GetUpdates b w.updates).2 = none := by
    cases h2 : (GetUpdates b w.updates).2 with
    | none => rfl
    | some err =>
      have := GetUpdates_error_is_empty b w.updates err h2
      rw [hget] at this
      exact absurd this hne
  have hpair : GetUpdates b w.updates = (updates, none) := by
    rw [← hget, ← hnone]
  exact PostMessage_of_updates message w b updates hinit hpair hne

/-- C1 at a concrete input: updates from chats 41 then 42 send to chat 42. -/
theorem PostMessage_sends_to_last_chat_witness :
    PostMessage "hello" postOK = ([.GetUpdates, .SendMessage 42 "hello"], .returned ()) :=
  PostMessage_sends_to_last_chat "hello" postOK
    { URL := { Text := "https://api.telegram.org/bott", Path := "" },
      WebhookURL := { Text := "https://example.org/hook", Path := "/t" } }
    [sampleUpdate 1 41, sampleUpdate 2 42] rfl rfl (by decide)

/-! ## C2 -/

/-- C2: on the answer `ok=true, result=[]` of `getUpdates`, `PostMessage` makes
no `SendMessage` call but it does not fail explicitly: the index
`updates[len(updates)-1]` is `updates[-1]` and the runtime panics. -/
theorem PostMessage_empty_updates_panics :
    PostMessage "ping for lunch @alice @bob" postEmpty
      = ([.GetUpdates], .panicked "runtime error: index out of range [-1]") := by
  decide

/-! ## C8 -/

theorem sends_PostMessage_of_not_ok (message : String) (w : PostWorld) (r : Response)
    (hw : w.updates = .decoded r) (hok : r.OK = false) :
    sends (PostMessage message w).1 = 0 := by
  unfold PostMessage
  cases hinit : InitBotObject w.init with
  | error err => rfl
  | ok b =>
    have hget : GetUpdates b w.updates = ([], some "No data received") := by
      simp [GetUpdates, hw, hok]
    simp only [hget]
    rfl

/-- C8: for a decoded `getUpdates` envelope `r`: if `r.OK` is false, `GetUpdates`
returns the empty sequence (not `r.Result`) with an error, and a `PostMessage`
that meets this envelope makes no `SendMessage` call; if `r.OK` is true,
`GetUpdates` returns exactly `r.Result` and no error, also when `r.Result` is
empty. -/
theorem GetUpdates_decoded (b : BotInfo) (r : Response) :
    (r.OK = false →
      (∃ err, GetUpdates b (.decoded r) = ([], some err)) ∧
      ∀ (message : String) (w : PostWorld), w.updates = .decoded r →
        sends (PostMessage message w).1 = 0) ∧
    (r.OK = true → GetUpdates b (.decoded r) = (r.Result, none)) := by
  refine ⟨fun hok => ⟨⟨"No data received", ?_⟩, ?_⟩, fun hok => ?_⟩
  · simp [GetUpdates, hok]
  · intro message w hw
    exact sends_PostMessage_of_not_ok message w r hw hok
  · simp [GetUpdates, hok]

/-- C8 at a concrete input: an envelope with `ok=false` that carries updates, and the
envelope `ok=true, result=[]`. -/
theorem GetUpdates_decoded_witness :
    ((∃ err, GetUpdates ⟨⟨"u", ""⟩, ⟨"v", ""⟩⟩
        (.decoded { OK := false, Result := [sampleUpdate 1 41] }) = ([], some err)) ∧
      ∀ (message : String) (w : PostWorld),
        w.updates = .decoded { OK := false, Result := [sampleUpdate 1 41] } →
        sends (PostMessage message w).1 = 0) ∧
    GetUpdates ⟨⟨"u", ""⟩, ⟨"v", ""⟩⟩ (.decoded { OK := true, Result := [] }) = ([], none) :=
  ⟨(GetUpdates_decoded ⟨⟨"u", ""⟩, ⟨"v", ""⟩⟩
      { OK := false, Result := [sampleUpdate 1 41] }).1 rfl,
   (GetUpdates_decoded ⟨⟨"u", ""⟩, ⟨"v", ""⟩⟩ { OK := true, Result := [] }).2 rfl⟩

/-! ## C9 -/

/-- C9: for a decoded `sendMessage` envelope `r`, `SendMessage` returns `nil`
exactly when `r.OK` is true; when `r.OK` is false the error text contains the
decimal text of `r.ErrorCode` and `r.Description` unchanged; for `ok=false`,
`error_code=400`, `description="chat not found"` the text is
`No data received. Error Code: 400, Desc: chat not found`. -/
theorem SendMessage_decoded (b : BotInfo) (chatid : Int) (message : String)
    (r : ResponseSentMessage) :
    (SendMessage b chatid message (.decoded r) = none ↔ r.OK = true) ∧
    (r.OK = false → ∃ e, SendMessage b chatid message (.decoded r) = some e ∧
      (Itoa r.ErrorCode).data <:+: e.data ∧ r.Description.data <:+: e.data) ∧
    SendMessage b chatid message (.decoded sentRefused)
      = some "No data received. Error Code: 400, Desc: chat not found" := by
  refine ⟨?_, fun hok => ?_, rfl⟩
  · cases hok : r.OK <;> simp [SendMessage, hok]
  · refine ⟨_, by simp only [SendMessage, hok]; rfl, ?_, ?_⟩
    · exact ⟨"No data received. Error Code: ".data, (", Desc: " ++ r.Description).data,
        by simp [String.data_append]⟩
    · exact ⟨("No data received. Error Code: " ++ Itoa r.ErrorCode ++ ", Desc: ").data, [],
        by simp [String.data_append]⟩

/-- C9 at a concrete input: the refused send of code 400, "chat not found". -/
theorem SendMessage_decoded_witness :
    ∃ e, SendMessage ⟨⟨"u", ""⟩, ⟨"v", ""⟩⟩ 42 "hello" (.decoded sentRefused) = some e ∧
      "400".data <:+: e.data ∧ "chat not found".data <:+: e.data :=
  (SendMessage_decoded ⟨⟨"u", ""⟩, ⟨"v", ""⟩⟩ 42 "hello" sentRefused).2.1 rfl

/-! ## C7 -/

theorem foldl_nameTags (names acc : List String) :
    names.foldl (fun nameTags name => nameTags ++ ["@" ++ name]) acc
      = acc ++ names.map (fun name => "@" ++ name) := by
  induction names generalizing acc with
  | nil => simp
  | cons n ns ih => simp [List.foldl_cons, ih]

theorem intercalate_go (sep : String) (elems : List String) (acc : String) :
    String.intercalate.go acc sep elems = acc ++ joinTail sep elems := by
  induction elems generalizing acc with
  | nil => simp [String.intercalate.go, joinTail]
  | cons e es ih => simp [String.intercalate.go, joinTail, ih, String.append_assoc]

theorem Join_eq_intercalate (elems : List String) (sep : String) :
    Join elems sep = sep.intercalate elems := by
  cases elems with
  | nil => rfl
  | cons e es =>
    cases es with
    | nil => simp [Join, String.intercalate, String.intercalate.go]
    | cons e2 es2 => simp [Join, String.intercalate, intercalate_go]

/-! ## One iteration of the loop -/

theorem scan_of_mem (t : LocalTime) (days : List String)
    (h : t.Weekday.String ∈ days) : shouldIPingToday.scan t days = false := by
  induction days with
  | nil => simp at h
  | cons d ds ih =>
    unfold shouldIPingToday.scan
    by_cases hd : t.Weekday.String = d
    · simp [hd]
    · rw [if_neg hd]
      rcases List.mem_cons.mp h with h1 | h1
      · exact absurd h1 hd
      · exact ih h1

/-- The four ways `PostMessage` can go. -/
theorem PostMessage_cases (message : String) (w : PostWorld) :
    (∃ err, PostMessage message w = ([], .fatal err)) ∨
    PostMessage message w = ([.GetUpdates], .returned ()) ∨
    (∃ msg, PostMessage message w = ([.GetUpdates], .panicked msg)) ∨
    (∃ chatid, PostMessage message w
      = ([.GetUpdates, .SendMessage chatid message], .returned ())) := by
  unfold PostMessage
  split
  · exact Or.inl ⟨_, rfl⟩
  · split
    · exact Or.inr (Or.inl rfl)
    · split
      · exact Or.inr (Or.inr (Or.inl ⟨_, rfl⟩))
      · exact Or.inr (Or.inr (Or.inr ⟨_, rfl⟩))

theorem posts_PostMessage (message : String) (w : PostWorld) :
    posts (PostMessage message w).1 = 0 := by
  rcases PostMessage_cases message w with ⟨e, h⟩ | h | ⟨m, h⟩ | ⟨c, h⟩ <;> rw [h] <;> rfl

theorem sends_PostMessage (message : String) (w : PostWorld) :
    sends (PostMessage message w).1 ≤ 1 := by
  rcases PostMessage_cases message w with ⟨e, h⟩ | h | ⟨m, h⟩ | ⟨c, h⟩ <;> rw [h] <;>
    simp [sends]

theorem iteration_skip (hour min : Int) (pingdone : Bool) (tk : Tick)
    (h : shouldIPingToday tk.NOPINGDAYS tk.indiaTime = false) :
    PingForLunch.iteration hour min pingdone tk = ([], .returned pingdone) := by
  simp [PingForLunch.iteration, h]

theorem iteration_reset (hour min : Int) (tk : Tick)
    (hday : shouldIPingToday tk.NOPINGDAYS tk.indiaTime = true)
    (h1 : tk.indiaTime.Hour = 1) :
    PingForLunch.iteration hour min true tk = ([], .returned false) := by
  simp [PingForLunch.iteration, hday, h1]

theorem iteration_fire (hour min : Int) (tk : Tick) (names : List String)
    (evs : List Event)
    (hday : shouldIPingToday tk.NOPINGDAYS tk.indiaTime = true)
    (hh : (tk.indiaTime.Hour : Int) = hour) (hm : (tk.indiaTime.Minute : Int) = min)
    (hnames : getNames tk.namesFile = (names, none))
    (hpost : PostMessage (PingForLunch.message names) tk.post = (evs, .returned ())) :
    PingForLunch.iteration hour min false tk
      = (.getNames :: .PostMessage (PingForLunch.message names) :: evs, .returned true) := by
  simp [PingForLunch.iteration, hday, hh, hm, hnames, hpost]

/-- The shapes one iteration can take: nothing happens, the flag is reset at
hour 1, the names fail to load at the target time, or `PostMessage` is called
once at the target time. -/
theorem iteration_cases (hour min : Int) (pingdone : Bool) (tk : Tick) :
    PingForLunch.iteration hour min pingdone tk = ([], .returned pingdone) ∨
    (tk.indiaTime.Hour = 1 ∧ pingdone = true ∧
      PingForLunch.iteration hour min pingdone tk = ([], .returned false)) ∨
    ((tk.indiaTime.Hour : Int) = hour ∧ (tk.indiaTime.Minute : Int) = min ∧
      pingdone = false ∧
      (PingForLunch.iteration hour min pingdone tk = ([.getNames], .returned false) ∨
       ∃ evs out, PingForLunch.iteration hour min pingdone tk = (evs, out) ∧
         posts evs = 1 ∧ sends evs ≤ 1 ∧ ∀ flag, out = .returned flag → flag = true)) := by
  unfold PingForLunch.iteration
  by_cases hday : shouldIPingToday tk.NOPINGDAYS tk.indiaTime = true
  swap
  · left; simp [hday]
  by_cases hfire : (tk.indiaTime.Hour : Int) = hour ∧ (tk.indiaTime.Minute : Int) = min
      ∧ pingdone = false
  · right; right
    obtain ⟨hh, hm, hp⟩ := hfire
    refine ⟨hh, hm, hp, ?_⟩
    subst hp
    rcases hnames : getNames tk.namesFile with ⟨names, _ | err⟩
    · right
      have hposts := posts_PostMessage (PingForLunch.message names) tk.post
      rcases hpost : PostMessage (PingForLunch.message names) tk.post with ⟨evs, o⟩
      rw [hpost] at hposts
      have hcount : posts (.getNames :: .PostMessage (PingForLunch.message names) :: evs) = 1 := by
        simp only [posts, List.countP_cons] at hposts ⊢
        simp [hposts]
      have hsends : sends (.getNames :: .PostMessage (PingForLunch.message names) :: evs) ≤ 1 := by
        have h2 := sends_PostMessage (PingForLunch.message names) tk.post
        rw [hpost] at h2
        simp only [sends, List.countP_cons] at h2 ⊢
        simpa using h2
      cases o with
      | returned u =>
        exact ⟨_, .returned true, by simp [hday, hh, hm, hpost], hcount, hsends,
          fun flag hf => by cases hf; rfl⟩
      | fatal msg =>
        exact ⟨_, .fatal msg, by simp [hday, hh, hm, hpost], hcount, hsends,
          fun flag hf => by cases hf⟩
      | panicked msg =>
        exact ⟨_, .panicked msg, by simp [hday, hh, hm, hpost], hcount, hsends,
          fun flag hf => by cases hf⟩
    · left
      simp [hday, hh, hm]
  · rw [if_neg (by simp [hday]), if_neg hfire]
    by_cases hreset : tk.indiaTime.Hour = 1 ∧ pingdone = true
    · right; left
      exact ⟨hreset.1, hreset.2, by rw [if_pos hreset]⟩
    · left
      rw [if_neg hreset]

/-! ## C7 (text of the reminder) -/

theorem PostMessage_trace_has_no_post (message m : String) (w : PostWorld) :
    Event.PostMessage m ∉ (PostMessage message w).1 := by
  rcases PostMessage_cases message w with ⟨e, h⟩ | h | ⟨e, h⟩ | ⟨c, h⟩ <;> rw [h] <;> simp

/-- The calls of one iteration: none, `getNames` alone, or `getNames` followed by
`PostMessage` with the text built from the loaded names and by the calls of
`PostMessage`. -/
theorem iteration_trace (hour min : Int) (pingdone : Bool) (tk : Tick) :
    (PingForLunch.iteration hour min pingdone tk).1 = [] ∨
    (PingForLunch.iteration hour min pingdone tk).1 = [.getNames] ∨
    (PingForLunch.iteration hour min pingdone tk).1
      = .getNames :: .PostMessage (PingForLunch.message (getNames tk.namesFile).1)
          :: (PostMessage (PingForLunch.message (getNames tk.namesFile).1) tk.post).1 := by
  unfold PingForLunch.iteration
  by_cases hday : shouldIPingToday tk.NOPINGDAYS tk.indiaTime = true
  swap
  · left; simp [hday]
  by_cases hfire : (tk.indiaTime.Hour : Int) = hour ∧ (tk.indiaTime.Minute : Int) = min
      ∧ pingdone = false
  · rw [if_neg (by simp [hday]), if_pos hfire]
    rcases hnames : getNames tk.namesFile with ⟨names, _ | err⟩
    · right; right
      rcases hpost : PostMessage (PingForLunch.message names) tk.post with ⟨evs, o⟩
      cases o <;> simp [hpost]
    · right; left
      simp
  · left
    rw [if_neg (by simp [hday]), if_neg hfire]
    split <;> rfl

/-- C7: the text one iteration passes to `PostMessage` is the one built from
the loaded names, and for every list of names that text is `"ping for lunch "`
followed by the names, each prefixed with `@`, joined by one space in list
order; for `alice`, `bob` it is `ping for lunch @alice @bob`. -/
theorem message_eq (names : List String) :
    PingForLunch.message names
      = "ping for lunch " ++ " ".intercalate (names.map (fun name => "@" ++ name)) ∧
    PingForLunch.message ["alice", "bob"] = "ping for lunch @alice @bob" ∧
    (∀ (hour min : Int) (pingdone : Bool) (tk : Tick) (m : String),
      (getNames tk.namesFile).1 = names →
      Event.PostMessage m ∈ (PingForLunch.iteration hour min pingdone tk).1 →
      m = "ping for lunch " ++ " ".intercalate (names.map (fun name => "@" ++ name))) := by
  have hmsg : PingForLunch.message names
      = "ping for lunch " ++ " ".intercalate (names.map (fun name => "@" ++ name)) := by
    unfold PingForLunch.message PingForLunch.nameTags
    rw [foldl_nameTags, Join_eq_intercalate, List.nil_append]
  refine ⟨hmsg, by decide, ?_⟩
  intro hour min pingdone tk m hnames hmem
  rcases iteration_trace hour min pingdone tk with h | h | h
  · rw [h] at hmem; simp at hmem
  · rw [h] at hmem; simp at hmem
  · rw [h, hnames] at hmem
    rcases List.mem_cons.mp hmem with h1 | h1
    · cases h1
    · rcases List.mem_cons.mp h1 with h2 | h2
      · cases h2
        exact hmsg
      · exact absurd h2 (PostMessage_trace_has_no_post _ m tk.post)

/-- C7 at a concrete input: the text sent on a Monday at 12:45 with the names `alice`
and `bob`. -/
theorem message_eq_witness :
    "ping for lunch @alice @bob"
      = "ping for lunch " ++ " ".intercalate (["alice", "bob"].map (fun name => "@" ++ name)) :=
  (message_eq ["alice", "bob"]).2.2 12 45 false (mondayTick 12 45 postOK)
    "ping for lunch @alice @bob" rfl (by decide)

/-! ## C4 -/

/-- C4: at a tick whose weekday name equals one of the comma-separated entries
of `NOPINGDAYS` (by default `Saturday` and `Sunday`), one iteration makes no call
at all, so neither `getNames` nor `PostMessage`, and leaves `pingdone` as it
was, for every target time, every hour and minute of the tick and both values
of the flag. -/
theorem iteration_excluded_day (hour min : Int) (pingdone : Bool) (tk : Tick)
    (h : tk.indiaTime.Weekday.String ∈ noPingDays tk.NOPINGDAYS) :
    PingForLunch.iteration hour min pingdone tk = ([], .returned pingdone) ∧
    noPingDays "" = ["Saturday", "Sunday"] := by
  refine ⟨iteration_skip hour min pingdone tk ?_, by decide⟩
  exact scan_of_mem tk.indiaTime _ h

/-- C4 at a concrete input: a Sunday at the target time 12:45 with the default
`NOPINGDAYS` and the flag not set. -/
theorem iteration_excluded_day_witness :
    PingForLunch.iteration 12 45 false
        { mondayTick 12 45 postOK with
          indiaTime := { Weekday := .Sunday, Hour := 12, Minute := 45 } }
      = ([], .returned false) :=
  (iteration_excluded_day 12 45 false
    { mondayTick 12 45 postOK with
      indiaTime := { Weekday := .Sunday, Hour := 12, Minute := 45 } } (by decide)).1

/-! ## C5 -/

theorem PostMessage_returns (message : String) (w : PostWorld) (b : BotInfo)
    (hinit : InitBotObject w.init = .ok b)
    (hupd : (GetUpdates b w.updates).2 = none → (GetUpdates b w.updates).1 ≠ []) :
    PostMessage message w = ((PostMessage message w).1, .returned ()) := by
  rcases hget : GetUpdates b w.updates with ⟨updates, _ | err⟩
  · have hne : updates ≠ [] := by
      have := hupd (by rw [hget])
      rwa [hget] at this
    rw [PostMessage_of_updates message w b updates hinit hget hne]
  · rw [PostMessage_of_error message w b updates err hinit hget]

/-- C5, as stated, fails: on an eligible day at the target time with the flag
not set and a name list that loads, `PostMessage` is called once but the
iteration does not end with the flag true when `TOKEN` is not set (the process
ends through `logrus.Fatalf`), nor when `getUpdates` answers `ok` with no update
(the runtime panics). -/
theorem iteration_fire_fatal_counterexample :
    shouldIPingToday "" (mondayTick 12 45 { postOK with init := initNoToken }).indiaTime = true ∧
    (getNames (mondayTick 12 45 { postOK with init := initNoToken }).namesFile).2 = none ∧
    PingForLunch.iteration 12 45 false (mondayTick 12 45 { postOK with init := initNoToken })
      = ([.getNames, .PostMessage "ping for lunch @alice @bob"],
          .fatal "Please set environment variable TOKEN") ∧
    (PingForLunch.iteration 12 45 false
        (mondayTick 12 45 { postOK with init := initNoToken })).2 ≠ .returned true ∧
    PingForLunch.iteration 12 45 false (mondayTick 12 45 postEmpty)
      = ([.getNames, .PostMessage "ping for lunch @alice @bob", .GetUpdates],
          .panicked "runtime error: index out of range [-1]") := by
  decide

/-- C5, amended: on an eligible day with `pingdone=false`, the hour and minute
of the tick equal to the target ones and a name list that loads, when the bot
initialises and `GetUpdates` either fails or returns at least one update, one
iteration calls `getNames`, then `PostMessage` exactly once with the reminder
text, and ends with the flag true, whatever the fetch and the send answered. -/
theorem iteration_fires_at_target (hour min : Int) (tk : Tick) (names : List String)
    (b : BotInfo)
    (hday : shouldIPingToday tk.NOPINGDAYS tk.indiaTime = true)
    (hh : (tk.indiaTime.Hour : Int) = hour) (hm : (tk.indiaTime.Minute : Int) = min)
    (hnames : getNames tk.namesFile = (names, none))
    (hinit : InitBotObject tk.post.init = .ok b)
    (hupd : (GetUpdates b tk.post.updates).2 = none → (GetUpdates b tk.post.updates).1 ≠ []) :
    PingForLunch.iteration hour min false tk
      = (.getNames :: .PostMessage (PingForLunch.message names)
          :: (PostMessage (PingForLunch.message names) tk.post).1, .returned true) ∧
    posts (PingForLunch.iteration hour min false tk).1 = 1 := by
  have hret := PostMessage_returns (PingForLunch.message names) tk.post b hinit hupd
  have hit := iteration_fire hour min tk names _ hday hh hm hnames hret
  refine ⟨hit, ?_⟩
  rw [hit]
  have h0 := posts_PostMessage (PingForLunch.message names) tk.post
  simp only [posts, List.countP_cons] at h0 ⊢
  simp [h0]

/-- C5 at a concrete input: a Monday at 12:45 where `sendMessage` is refused. -/
theorem iteration_fires_at_target_witness :
    PingForLunch.iteration 12 45 false
        (mondayTick 12 45 { postOK with sent := .decoded sentRefused })
      = ([.getNames, .PostMessage "ping for lunch @alice @bob", .GetUpdates,
          .SendMessage 42 "ping for lunch @alice @bob"], .returned true) :=
  (iteration_fires_at_target 12 45
    (mondayTick 12 45 { postOK with sent := .decoded sentRefused }) ["alice", "bob"]
    { URL := { Text := "https://api.telegram.org/bott", Path := "" },
      WebhookURL := { Text := "https://example.org/hook", Path := "/t" } }
    (by decide) rfl rfl rfl rfl (by decide)).1

/-! ## C6 -/

/-- C6: from a fresh process with the default target time 12:45, the Monday
12:45 tick fires and sets the flag, and the Tuesday 1:30 tick resets it without
any call, as the claim says; but at the following Tuesday 12:45 tick, where the
name list loads and `getUpdates` answers `ok` with no update, `PostMessage` is
called and the runtime panics at `updates[len(updates)-1]`, so the flag is never
set to true. -/
theorem reset_then_target_tick_panics :
    PingForLunch (.error "invalid syntax") (.error "invalid syntax") none
        [mondayTick 12 45 postOK]
      = ([.getNames, .PostMessage "ping for lunch @alice @bob", .GetUpdates,
          .SendMessage 42 "ping for lunch @alice @bob"], .returned true) ∧
    PingForLunch.iteration 12 45 true (tuesdayTick 1 30 postOK) = ([], .returned false) ∧
    shouldIPingToday (tuesdayTick 12 45 postEmpty).NOPINGDAYS
      (tuesdayTick 12 45 postEmpty).indiaTime = true ∧
    getNames (tuesdayTick 12 45 postEmpty).namesFile = (["alice", "bob"], none) ∧
    PingForLunch.iteration 12 45 false (tuesdayTick 12 45 postEmpty)
      = ([.getNames, .PostMessage "ping for lunch @alice @bob", .GetUpdates],
          .panicked "runtime error: index out of range [-1]") ∧
    PingForLunch (.error "invalid syntax") (.error "invalid syntax") none
        [mondayTick 12 45 postOK, tuesdayTick 1 30 postOK, tuesdayTick 12 45 postEmpty]
      = ([.getNames, .PostMessage "ping for lunch @alice @bob", .GetUpdates,
          .SendMessage 42 "ping for lunch @alice @bob",
          .getNames, .PostMessage "ping for lunch @alice @bob", .GetUpdates],
          .panicked "runtime error: index out of range [-1]") := by
  decide

/-! ## The loop over one day -/

theorem posts_append (xs ys : List Event) : posts (xs ++ ys) = posts xs + posts ys := by
  simp [posts, List.countP_append]

theorem loop_of_returned (hour min : Int) (pingdone flag : Bool) (tk : Tick)
    (rest : List Tick) (evs : List Event)
    (h : PingForLunch.iteration hour min pingdone tk = (evs, .returned flag)) :
    PingForLunch.loop hour min pingdone (tk :: rest)
      = (evs ++ (PingForLunch.loop hour min flag rest).1,
          (PingForLunch.loop hour min flag rest).2) := by
  simp only [PingForLunch.loop, h]

theorem loop_of_quiet (hour min : Int) (pingdone flag : Bool) (tk : Tick)
    (rest : List Tick)
    (h : PingForLunch.iteration hour min pingdone tk = ([], .returned flag)) :
    PingForLunch.loop hour min pingdone (tk :: rest) = PingForLunch.loop hour min flag rest := by
  rw [loop_of_returned hour min pingdone flag tk rest [] h, List.nil_append]

/-- No tick at the target time: the loop never calls `PostMessage`. -/
theorem loop_off_target (hour min : Int) (ticks : List Tick) (pingdone : Bool)
    (hoff : ∀ tk ∈ ticks,
      ¬ ((tk.indiaTime.Hour : Int) = hour ∧ (tk.indiaTime.Minute : Int) = min)) :
    posts (PingForLunch.loop hour min pingdone ticks).1 = 0 := by
  induction ticks generalizing pingdone with
  | nil => rfl
  | cons tk rest ih =>
    have hrest : ∀ t ∈ rest,
        ¬ ((t.indiaTime.Hour : Int) = hour ∧ (t.indiaTime.Minute : Int) = min) :=
      fun t ht => hoff t (List.mem_cons_of_mem _ ht)
    rcases iteration_cases hour min pingdone tk with h | ⟨_, _, h⟩ | ⟨hh, hm, _, _⟩
    · rw [loop_of_quiet hour min pingdone pingdone tk rest h]
      exact ih pingdone hrest
    · rw [loop_of_quiet hour min pingdone false tk rest h]
      exact ih false hrest
    · exact absurd ⟨hh, hm⟩ (hoff tk (List.mem_cons_self _ _))

/-- From the flag set, over ticks in order none of which is before the target
time, with a target hour other than 1: the loop never calls `PostMessage`, and
when the target hour is after 1 the flag stays set. -/
theorem loop_after_fire (hour min : Int) (hhour : hour ≠ 1) (ticks : List Tick)
    (hord : List.Pairwise (fun a b => LocalTime.le a.indiaTime b.indiaTime) ticks)
    (hlate : ∀ tk ∈ ticks, hour < (tk.indiaTime.Hour : Int) ∨
      (hour = (tk.indiaTime.Hour : Int) ∧ min ≤ (tk.indiaTime.Minute : Int))) :
    posts (PingForLunch.loop hour min true ticks).1 = 0 ∧
    (1 < hour → (PingForLunch.loop hour min true ticks).2 = .returned true) := by
  induction ticks with
  | nil => exact ⟨rfl, fun _ => rfl⟩
  | cons tk rest ih =>
    have hord2 := List.pairwise_cons.mp hord
    have hrest := ih hord2.2 (fun t ht => hlate t (List.mem_cons_of_mem _ ht))
    have htk := hlate tk (List.mem_cons_self _ _)
    rcases iteration_cases hour min true tk with h | ⟨h1, _, h⟩ | ⟨_, _, hf, _⟩
    · rw [loop_of_quiet hour min true true tk rest h]
      exact hrest
    · rw [loop_of_quiet hour min true false tk rest h]
      have hlt : hour < 1 := by
        have h1z : (tk.indiaTime.Hour : Int) = 1 := by exact_mod_cast h1
        omega
      refine ⟨loop_off_target hour min rest false ?_, fun hgt => by omega⟩
      intro t ht hat
      have hle : LocalTime.le tk.indiaTime t.indiaTime := hord2.1 t ht
      have hge : tk.indiaTime.Hour ≤ t.indiaTime.Hour := by
        rcases hle with hle | ⟨hle, _⟩ <;> omega
      omega
    · cases hf

/-- Over ticks in order and with a target hour other than 1, the loop calls
`PostMessage` at most once from either value of the flag; when the target hour
is after 1 and the call was made, the flag is set at the end. -/
theorem loop_once (hour min : Int) (hhour : hour ≠ 1) (ticks : List Tick)
    (pingdone : Bool)
    (hord : List.Pairwise (fun a b => LocalTime.le a.indiaTime b.indiaTime) ticks) :
    posts (PingForLunch.loop hour min pingdone ticks).1 ≤ 1 ∧
    (1 < hour → posts (PingForLunch.loop hour min pingdone ticks).1 = 1 →
      ∀ flag, (PingForLunch.loop hour min pingdone ticks).2 = .returned flag →
        flag = true) := by
  induction ticks generalizing pingdone with
  | nil => exact ⟨Nat.zero_le _, fun _ h => absurd h (by simp [PingForLunch.loop, posts])⟩
  | cons tk rest ih =>
    have hord2 := List.pairwise_cons.mp hord
    rcases iteration_cases hour min pingdone tk with h | ⟨_, _, h⟩ | ⟨hh, hm, _, h | h⟩
    · rw [loop_of_quiet hour min pingdone pingdone tk rest h]
      exact ih pingdone hord2.2
    · rw [loop_of_quiet hour min pingdone false tk rest h]
      exact ih false hord2.2
    · rw [loop_of_returned hour min pingdone false tk rest [.getNames] h, posts_append]
      have := ih false hord2.2
      have h0 : posts [Event.getNames] = 0 := rfl
      rw [h0, Nat.zero_add]
      exact this
    · obtain ⟨evs, out, hit, hposts, _, hflag⟩ := h
      cases out with
      | returned flag =>
        have hflag2 : flag = true := hflag flag rfl
        subst hflag2
        rw [loop_of_returned hour min pingdone true tk rest evs hit, posts_append, hposts]
        have hafter := loop_after_fire hour min hhour rest hord2.2 (by
          intro t ht
          have hle : LocalTime.le tk.indiaTime t.indiaTime := hord2.1 t ht
          rcases hle with hle | ⟨hle1, hle2⟩
          · left; omega
          · right; constructor <;> omega)
        rw [hafter.1]
        refine ⟨le_refl _, fun hgt _ flag hout => ?_⟩
        simp only [] at hout
        rw [hafter.2 hgt] at hout
        cases hout
        rfl
      | fatal msg =>
        have hl : PingForLunch.loop hour min pingdone (tk :: rest) = (evs, .fatal msg) := by
          simp only [PingForLunch.loop, hit]
        rw [hl]
        exact ⟨by simp only [hposts]; exact le_refl _, fun _ _ flag hout => by cases hout⟩
      | panicked msg =>
        have hl : PingForLunch.loop hour min pingdone (tk :: rest) = (evs, .panicked msg) := by
          simp only [PingForLunch.loop, hit]
        rw [hl]
        exact ⟨by simp only [hposts]; exact le_refl _, fun _ _ flag hout => by cases hout⟩

theorem pairwise_of_nonDecreasing (ticks : List Tick) (h : NonDecreasing ticks) :
    List.Pairwise (fun a b => LocalTime.le a.indiaTime b.indiaTime) ticks :=
  List.chain'_iff_pairwise.mp h

/-! ## C3 -/

/-- C3: with the target time 1:00, three ticks at 1:00 of one eligible day
(a Monday), in order, from the flag not set: the first tick fires, the second
resets the flag because the hour is 1, and the third fires again, so
`PostMessage` is called twice in that day. -/
theorem loop_target_hour_one_posts_twice :
    NonDecreasing [mondayTick 1 0 postOK, mondayTick 1 0 postOK, mondayTick 1 0 postOK] ∧
    shouldIPingToday (mondayTick 1 0 postOK).NOPINGDAYS (mondayTick 1 0 postOK).indiaTime
      = true ∧
    PingForLunch (.ok 1) (.ok 0) none
        [mondayTick 1 0 postOK, mondayTick 1 0 postOK, mondayTick 1 0 postOK]
      = ([.getNames, .PostMessage "ping for lunch @alice @bob", .GetUpdates,
          .SendMessage 42 "ping for lunch @alice @bob",
          .getNames, .PostMessage "ping for lunch @alice @bob", .GetUpdates,
          .SendMessage 42 "ping for lunch @alice @bob"], .returned true) ∧
    posts (PingForLunch (.ok 1) (.ok 0) none
        [mondayTick 1 0 postOK, mondayTick 1 0 postOK, mondayTick 1 0 postOK]).1 = 2 := by
  refine ⟨?_, by decide⟩
  simp [NonDecreasing, LocalTime.le, mondayTick]

/-! ## C10 -/

/-- C10: when the target hour read from `HOUR` is not 1, over any ticks whose
local times never go back, from either value of `pingdone` and whatever the
names files and the network answer, the loop calls `PostMessage` at most once.
When the target hour is after 1, after any number of iterations in which the
call was made the flag is set; when the target hour is 0, the ticks that follow
a tick of hour 1 make no call. -/
theorem loop_posts_at_most_once (atoiHour atoiMin : Except String Int) (pingdone : Bool)
    (ticks : List Tick) (hhour : PingForLunch.hour atoiHour ≠ 1)
    (hord : NonDecreasing ticks) :
    posts (PingForLunch.loop (PingForLunch.hour atoiHour) (PingForLunch.min atoiMin)
      pingdone ticks).1 ≤ 1 ∧
    (1 < PingForLunch.hour atoiHour → ∀ n flag,
      posts (PingForLunch.loop (PingForLunch.hour atoiHour) (PingForLunch.min atoiMin)
        pingdone (ticks.take n)).1 = 1 →
      (PingForLunch.loop (PingForLunch.hour atoiHour) (PingForLunch.min atoiMin)
        pingdone (ticks.take n)).2 = .returned flag → flag = true) ∧
    (PingForLunch.hour atoiHour = 0 → ∀ before tk after flag,
      ticks = before ++ tk :: after → tk.indiaTime.Hour = 1 →
      posts (PingForLunch.loop (PingForLunch.hour atoiHour) (PingForLunch.min atoiMin)
        flag after).1 = 0) := by
  have hp := pairwise_of_nonDecreasing ticks hord
  refine ⟨(loop_once _ _ hhour ticks pingdone hp).1, ?_, ?_⟩
  · intro hgt n flag hposts hout
    exact (loop_once _ _ hhour (ticks.take n) pingdone
      (hp.sublist (List.take_sublist n ticks))).2 hgt hposts flag hout
  · intro h0 before tk after flag hsplit h1
    apply loop_off_target
    intro t ht hat
    rw [hsplit] at hp
    have hp2 := (List.pairwise_append.mp hp).2.1
    have hle : LocalTime.le tk.indiaTime t.indiaTime := (List.pairwise_cons.mp hp2).1 t ht
    have hge : tk.indiaTime.Hour ≤ t.indiaTime.Hour := by
      rcases hle with hle | ⟨hle, _⟩ <;> omega
    have := hat.1
    omega

/-- C10 at a concrete input: the default target time 12:45 (`HOUR` and `MINUTE` not
numbers), ticks at 1:10, 12:45, 12:45 and 13:00 from the flag set: one call. -/
theorem loop_posts_at_most_once_witness :
    posts (PingForLunch.loop 12 45 true
      [mondayTick 1 10 postOK, mondayTick 12 45 postOK, mondayTick 12 45 postOK,
       mondayTick 13 0 postOK]).1 ≤ 1 :=
  (loop_posts_at_most_once (.error "invalid syntax") (.error "invalid syntax") true
    [mondayTick 1 10 postOK, mondayTick 12 45 postOK, mondayTick 12 45 postOK,
     mondayTick 13 0 postOK] (by decide)
    (by simp [NonDecreasing, LocalTime.le, mondayTick])).1

end TelegramBot
